import Mathlib

/-!
Verification development for the `flash` documentation generator.

The definitions below are a shallow embedding of the Rust sources under
`src/builder/` (`namespace.rs`, `tutorial.rs`, `builder.rs`).  Pure
functions are translated as Lean functions, `HashMap`s as association
lists with insert-replaces-value semantics, filesystem access as an
explicit map from paths to contents, and fallible code as `Except`.
External collaborators that are out of scope of the repository (clang,
the strfmt template crate, markdown rendering, minifiers) are modelled
from the specification and marked as such in their doc comments.
-/

namespace Flash

/-! ## Generic association-list maps

Rust `HashMap<String, V>`: `insert` replaces the value stored for an
existing key, `extend` inserts every pair of the other map. -/

/-- Lookup in an association list (first binding wins, as in `HashMap::get`
where keys are unique). -/
def lookupKV {α : Type} : List (String × α) → String → Option α
  | [], _ => none
  | (k, v) :: rest, key => if k = key then some v else lookupKV rest key

/-- Models `HashMap::insert`: replace the value of an existing binding,
otherwise add a new binding. -/
def insertKV {α : Type} : List (String × α) → String → α → List (String × α)
  | [], key, v => [(key, v)]
  | (k, v') :: rest, key, v =>
    if k = key then (key, v) :: rest else (k, v') :: insertKV rest key v

/-- Models `HashMap::extend`: insert every binding of the second map into
the first (later bindings overwrite). -/
def extendKV {α : Type} (m : List (String × α)) (other : List (String × α)) :
    List (String × α) :=
  other.foldl (fun acc p => insertKV acc p.1 p.2) m

/-! ## Entity Model (from `src/builder/namespace.rs`)

The clang AST is modelled by `AstNode`: the node kind, the optional
name, the `is_in_system_header` flag, the `is_definition` flag and the
child nodes.  These are exactly the attributes `Namespace::load_entries`
and `CppItemKind::from` consult. -/

/-- The clang `EntityKind`s distinguished by `CppItemKind::from`;
every other kind is collapsed into `otherKind`. -/
inductive AstKind where
  | structDecl
  | classDecl
  | classTemplate
  | classTemplatePartialSpec
  | functionDecl
  | functionTemplate
  | namespaceDecl
  | otherKind
deriving DecidableEq

/-- One clang AST node, restricted to the attributes read by the builder. -/
inductive AstNode where
  | mk (kind : AstKind) (name : Option String) (sysHeader : Bool)
       (isDef : Bool) (children : List AstNode)

def AstNode.kind : AstNode → AstKind
  | .mk k _ _ _ _ => k

def AstNode.name : AstNode → Option String
  | .mk _ n _ _ _ => n

def AstNode.sysHeader : AstNode → Bool
  | .mk _ _ s _ _ => s

def AstNode.isDef : AstNode → Bool
  | .mk _ _ _ d _ => d

def AstNode.children : AstNode → List AstNode
  | .mk _ _ _ _ c => c

/-- Embeds `CppItemKind` from `namespace.rs`. -/
inductive CppItemKind where
  | namespaceKind
  | classKind
  | structKind
  | functionKind
deriving DecidableEq

/-- Embeds `CppItemKind::from`: classify an AST node kind, `None` for
unrecognized kinds. -/
def CppItemKind.from : AstKind → Option CppItemKind
  | .structDecl => some .structKind
  | .classDecl => some .classKind
  | .classTemplate => some .classKind
  | .classTemplatePartialSpec => some .classKind
  | .functionDecl => some .functionKind
  | .functionTemplate => some .functionKind
  | .namespaceDecl => some .namespaceKind
  | .otherKind => none

/-- Embeds `CppItem` from `namespace.rs`: a namespace carries its entry map
(`Namespace.entries : HashMap<String, CppItem>`); classes, structs and
functions carry their AST entity. -/
inductive CppItem where
  | nsItem (entries : List (String × CppItem))
  | classItem (entity : AstNode)
  | structItem (entity : AstNode)
  | functionItem (entity : AstNode)

/-- A namespace's entry map. -/
abbrev Entries := List (String × CppItem)

/-- Whether a `CppItem` is a `CppItem::Namespace`. -/
def CppItem.isNs : CppItem → Bool
  | .nsItem _ => true
  | _ => false

/-!
Embeds `Namespace::load_entries` from `namespace.rs`, split into the
per-child step (`loadChild`) and the fold over all children
(`loadEntriesList`).  Children in system headers or without a name are
skipped; namespace children are built recursively and merged into an
existing sibling namespace of the same name via `HashMap::extend`
(silently dropped if a non-namespace sibling occupies the name);
struct/class children are registered only if they are definitions;
function children are always registered.  The local name of a
struct/class/function (`Entry::name` in the missing
`class.rs`/`struct_.rs`/`function.rs`) is the entity's own name, per the
spec's "children (mapping from local name to EntityNode)".
-/
mutual

def loadEntriesList : Entries → List AstNode → Entries
  | acc, [] => acc
  | acc, c :: rest => loadEntriesList (loadChild acc c) rest

def loadChild : Entries → AstNode → Entries
  | acc, .mk kind name sys d children =>
    if sys then acc else
    match name with
    | none => acc
    | some n =>
      match CppItemKind.from kind with
      | none => acc
      | some .namespaceKind =>
        -- let entry = Namespace::new(*child)
        let entry := loadEntriesList [] children
        match lookupKV acc n with
        -- merge existing entries of namespace
        | some (.nsItem ns) => insertKV acc n (.nsItem (extendKV ns entry))
        -- non-namespace sibling occupies the name: nothing happens
        | some _ => acc
        -- insert new namespace
        | none => insertKV acc n (.nsItem entry)
      | some .structKind =>
        if d then insertKV acc n (.structItem (.mk kind name sys d children)) else acc
      | some .classKind =>
        if d then insertKV acc n (.classItem (.mk kind name sys d children)) else acc
      | some .functionKind =>
        insertKV acc n (.functionItem (.mk kind name sys d children))

end

/-- The entry map of the root namespace built from a root AST node
(`Namespace::new_root` runs `load_entries` on the root's children). -/
def loadRoot (root : AstNode) : Entries :=
  loadEntriesList [] root.children

/-- Project the entry map out of a namespace item found by name. -/
def getNsEntries (m : Entries) (key : String) : Option Entries :=
  match lookupKV m key with
  | some (.nsItem es) => some es
  | _ => none

/-- A root AST node carrying two declarations of namespace `N`, each of
which declares a nested namespace `M`: the first `M` holds class `X`,
the second `M` holds class `Y`. -/
def twoNestedNsRoot : AstNode :=
  .mk .namespaceDecl (some "TU") false true
    [.mk .namespaceDecl (some "N") false true
      [.mk .namespaceDecl (some "M") false true
        [.mk .classDecl (some "X") false true []]],
     .mk .namespaceDecl (some "N") false true
      [.mk .namespaceDecl (some "M") false true
        [.mk .classDecl (some "Y") false true []]]]

/-! ## URL paths and small string utilities

The repository's `url.rs` is not under `src/`; per §3 a `UrlPath` is an
ordered sequence of path segments rendered with forward slashes. -/

/-- Modelled from the spec: `UrlPath` (§3) is an ordered sequence of
path segments. -/
abbrev Url := List String

/-- Modelled from the spec: rendering a `UrlPath` joins its segments
with forward slashes (`to_raw_string` / `Display` in the missing
`url.rs`). -/
def urlToString (u : Url) : String :=
  String.intercalate "/" u

/-- Modelled from the spec: `UrlPath::raw_file_name` is the last path
segment, if any. -/
def rawFileName : Url → Option String
  | [] => none
  | x :: rest =>
    match rest with
    | [] => some x
    | _ :: _ => rawFileName rest

/-- Drop a leading occurrence of `pat` from `hay`, returning the rest. -/
def stripPat : List Char → List Char → Option (List Char)
  | [], hay => some hay
  | _ :: _, [] => none
  | p :: ps, c :: cs => if p = c then stripPat ps cs else none

/-- Fueled core of `rustReplace`. -/
def replaceAllAux : Nat → List Char → List Char → List Char → List Char
  | 0, _, _, _ => []
  | fuel + 1, hay, pat, rep =>
    match hay with
    | [] => []
    | c :: cs =>
      match stripPat pat hay with
      | some rest => rep ++ replaceAllAux fuel rest pat rep
      | none => c :: replaceAllAux fuel cs pat rep

/-- Models Rust `str::replace`: replace every non-overlapping match of
`pat`, scanning left to right.  The fuel `|s| + 1` is enough for every
non-empty pattern, which is the only way the sources use it
(`.replace(".md", "")`). -/
def rustReplace (s pat rep : String) : String :=
  String.mk (replaceAllAux (s.data.length + 1) s.data pat.data rep.data)

/-- Split character data into lines at newline characters. -/
def splitLinesAux : List Char → List Char → List (List Char)
  | [], acc => [acc.reverse]
  | c :: rest, acc =>
    if c = '\n' then acc.reverse :: splitLinesAux rest []
    else splitLinesAux rest (c :: acc)

/-- Modelled from the spec: `extract_title_from_md` lives in the missing
`shared.rs`; per §3 and §6 the extracted title is "the first heading
found in the markdown body".  We return the text of the first line that
starts with `#`, with the leading hashes and spaces stripped. -/
def extractTitleFromMd (md : String) : Option String :=
  (splitLinesAux md.data []).findSome? fun line =>
    match line with
    | '#' :: _ =>
      some (String.mk ((line.dropWhile (fun c => c = '#')).dropWhile (fun c => c = ' ')))
    | _ => none

/-! ## Tutorials (from `src/builder/tutorial.rs`) -/

/-- Outcome of running a piece of Rust code: a normal return, an error
returned through the pipeline's uniform `Result<_, String>` channel, or
a panic (`expect` / `unwrap`). -/
inductive RunResult (α : Type) where
  | ok (val : α)
  | err (msg : String)
  | panicked (msg : String)
deriving DecidableEq

/-- Whether a `RunResult` is an error on the uniform `Result` channel. -/
def RunResult.isUniformErr {α : Type} : RunResult α → Bool
  | .err _ => true
  | _ => false

/-- A filesystem for tutorial reads: maps a tutorial-relative path to the
file's contents, `none` when the file cannot be read. -/
def Fs := Url → Option String

/-- The filesystem on which every read fails. -/
def emptyFs : Fs := fun _ => none

/-- Embeds the `Tutorial` struct of `tutorial.rs`. -/
structure Tutorial where
  path : Url
  title : String
  unparsedContent : String
deriving DecidableEq

/-- Embeds `Tutorial::new`: read the file at `path` (relative to the
configured tutorial directory); an unreadable file panics via
`.expect(&format!("Unable to read tutorial {}", path.to_raw_string()))`;
otherwise the title is the markdown's first heading falling back to the
raw file name (`path.raw_file_name().unwrap()`). -/
def tutorialNewRun (fs : Fs) (path : Url) : RunResult Tutorial :=
  match fs path with
  | none => .panicked ("Unable to read tutorial " ++ urlToString path)
  | some content =>
    match rawFileName path with
    | none => .panicked "called Option::unwrap on a None value"
    | some fname => .ok ⟨path, (extractTitleFromMd content).getD fname, content⟩

/-- Embeds `Tutorial::name` (`Entry::name` impl): the raw file name with
every occurrence of ".md" removed.  Tutorials are always built from file
paths, so `raw_file_name().unwrap()` is modelled total with a default. -/
def Tutorial.name (t : Tutorial) : String :=
  rustReplace ((rawFileName t.path).getD "") ".md" ""

/-- Embeds `Tutorial::url`: `UrlPath::parse("tutorials").join(&self.path)`. -/
def Tutorial.url (t : Tutorial) : Url :=
  "tutorials" :: t.path

/-! ## Tutorial directory scan (from `TutorialFolder::from_folder`) -/

/-- A scanned filesystem tree for the tutorial directory walk. -/
inductive FsNode where
  | dir (name : String) (entries : List FsNode)
  | file (name : String) (content : String)

/-- Embeds the `TutorialFolder` struct of `tutorial.rs`. -/
inductive TutorialFolder where
  | mk (isRoot : Bool) (path : Url) (index : Option String)
       (folders : List (String × TutorialFolder))
       (tutorials : List (String × Tutorial))

def TutorialFolder.isRoot : TutorialFolder → Bool
  | .mk r _ _ _ _ => r

def TutorialFolder.path : TutorialFolder → Url
  | .mk _ p _ _ _ => p

def TutorialFolder.index : TutorialFolder → Option String
  | .mk _ _ i _ _ => i

def TutorialFolder.folders : TutorialFolder → List (String × TutorialFolder)
  | .mk _ _ _ f _ => f

def TutorialFolder.tutorials : TutorialFolder → List (String × Tutorial)
  | .mk _ _ _ _ t => t

/-- Embeds `TutorialFolder::name` (`Entry::name` impl):
`path.raw_file_name().unwrap_or("_")`. -/
def TutorialFolder.name (f : TutorialFolder) : String :=
  (rawFileName f.path).getD "_"

/-- Embeds `TutorialFolder::url` (`Entry::url` impl): the empty path for
the root folder, otherwise `tutorials/` followed by the folder path. -/
def TutorialFolder.url (f : TutorialFolder) : Url :=
  if f.isRoot then [] else "tutorials" :: f.path

/-- Lower-case a string character by character (Rust
`str::to_lowercase`, restricted to the simple per-character case). -/
def toLowerStr (s : String) : String :=
  String.mk (s.data.map Char.toLower)

/-- The "special files" check of `from_folder`: file names that compare
case-insensitively equal to `readme.md` or `index.md`. -/
def isSpecialMd (name : String) : Bool :=
  toLowerStr name = "readme.md" || toLowerStr name = "index.md"

/-- Models Rust `Path::extension`: the part after the last dot, provided
the stem before it is non-empty. -/
def extensionOf (name : String) : Option String :=
  match name.data.reverse.dropWhile (fun c => c ≠ '.') with
  | '.' :: stemRev =>
    if stemRev.isEmpty then none
    else some (String.mk (name.data.reverse.takeWhile (fun c => c ≠ '.')).reverse)
  | _ => none

/-- The `path.extension() == Some(OsStr::new("md"))` test. -/
def hasMdExt (name : String) : Bool :=
  extensionOf name = some "md"

/-- A file qualifies as a tutorial: markdown extension and not a special
(readme/index) file. -/
def qualifiesAsTutorial (name : String) : Bool :=
  hasMdExt name && !isSpecialMd name

/-- The folder-index computation of `from_folder`: read the file named
exactly `index.md` from the folder when it exists. -/
def findIndexContent : List FsNode → Option String
  | [] => none
  | .file n c :: rest => if n = "index.md" then some c else findIndexContent rest
  | .dir _ _ :: rest => findIndexContent rest

/-!
Embeds `TutorialFolder::from_folder`: walk the directory entries in
order; a sub-directory is inserted into `folders` only when its own scan
qualifies (`from_folder` returns `Some`); a file is inserted into
`tutorials` when it has the `md` extension and is not a special
readme/index file (the `Tutorial` is built from the file's contents, as
`Tutorial::new` reads the same file from disk); the folder itself
qualifies only when it has at least one sub-folder or tutorial, and its
index is the contents of the file literally named `index.md`, if
present.  `selfPath` is the folder's path relative to the configured
tutorial directory (the root call passes the tutorial directory itself,
whose stripped relative path is empty).
-/
mutual

def scanEntries (selfPath : Url) (accF : List (String × TutorialFolder))
    (accT : List (String × Tutorial)) :
    List FsNode → List (String × TutorialFolder) × List (String × Tutorial)
  | [] => (accF, accT)
  | .dir dname dentries :: rest =>
    match fromFolder (selfPath ++ [dname]) dentries with
    | some folder => scanEntries selfPath
        (insertKV accF (TutorialFolder.name folder) folder) accT rest
    | none => scanEntries selfPath accF accT rest
  | .file fname content :: rest =>
    if qualifiesAsTutorial fname then
      let tut : Tutorial :=
        ⟨selfPath ++ [fname], (extractTitleFromMd content).getD fname, content⟩
      scanEntries selfPath accF (insertKV accT (Tutorial.name tut) tut) rest
    else
      scanEntries selfPath accF accT rest

def fromFolder (selfPath : Url) (entries : List FsNode) : Option TutorialFolder :=
  let scanned := scanEntries selfPath [] [] entries
  if scanned.1.length > 0 || scanned.2.length > 0 then
    some (.mk false selfPath (findIndexContent entries) scanned.1 scanned.2)
  else
    none

end

/-- Embeds `TutorialFolder::from_config`: when a tutorial directory is
configured and its scan qualifies, that folder is marked as the root;
otherwise an empty root folder with an empty path and no index. -/
def fromConfig (tutorialsCfg : Option (List FsNode)) : TutorialFolder :=
  match tutorialsCfg with
  | some rootEntries =>
    match fromFolder [] rootEntries with
    | some (.mk _ p i f t) => .mk true p i f t
    | none => .mk true [] none [] []
  | none => .mk true [] none [] []

/-- A tutorial leaf whose source file is not a special readme/index
file. -/
def tutOk (t : Tutorial) : Bool :=
  !isSpecialMd ((rawFileName t.path).getD "")

/-- All tutorials in a map come from non-special files. -/
def tutorialListOk (m : List (String × Tutorial)) : Bool :=
  m.all fun p => tutOk p.2

/-!
Tree-wide check that no readme/index file produced a tutorial leaf.
-/
mutual

def noSpecialTutorials : TutorialFolder → Bool
  | .mk _ _ _ folders tutorials =>
    tutorialListOk tutorials && folderListOk folders

def folderListOk : List (String × TutorialFolder) → Bool
  | [] => true
  | (_, f) :: rest => noSpecialTutorials f && folderListOk rest

end
/-! ## Builder and page pipeline (from `src/builder/builder.rs`) -/

/-- The opening curly brace character. -/
def lbrace : Char := Char.ofNat 123

/-- The closing curly brace character. -/
def rbrace : Char := Char.ofNat 125

/-- The configuration fields read by the builder: project identity and
the template store (§6). -/
structure Config where
  projectName : String
  projectVersion : String
  projectRepo : Option String
  projectIcon : Option String
  outputUrl : Option Url
  navTemplate : String
  headTemplate : String
  pageTemplate : String
  tutorialTemplate : String
  tutorialIndexTemplate : String
deriving DecidableEq

/-- Modelled from the spec: `UrlPath::to_absolute` (missing `url.rs`)
resolves a path against the configured site base URL (§4.2). -/
def toAbsolute (cfg : Config) (u : Url) : String :=
  urlToString (cfg.outputUrl.getD [] ++ u)

/-- Embeds `default_format` from `builder.rs`: the template variables
every page starts from. -/
def defaultFormat (cfg : Config) : List (String × String) :=
  [("project_name", cfg.projectName),
   ("project_version", cfg.projectVersion),
   ("project_repository", cfg.projectRepo.getD ""),
   ("project_icon",
     match cfg.projectIcon with
     | some _ =>
       "<img src=\"" ++ urlToString (cfg.outputUrl.getD []) ++ "/icon.png\">"
     | none => ""),
   ("output_url", urlToString (cfg.outputUrl.getD []))]

/-- Core of `strfmt`: scan the template; outside braces copy characters,
inside braces accumulate the placeholder name (reversed) and substitute
on the closing brace, failing on an unknown placeholder or an
unterminated brace. -/
def strfmtGo (vars : List (String × String)) :
    List Char → Option (List Char) → Except String (List Char)
  | [], none => .ok []
  | [], some _ => .error "unterminated placeholder"
  | c :: cs, none =>
    if c = lbrace then strfmtGo vars cs (some [])
    else (strfmtGo vars cs none).map (fun r => c :: r)
  | c :: cs, some acc =>
    if c = rbrace then
      match lookupKV vars (String.mk acc.reverse) with
      | some v => (strfmtGo vars cs none).map (fun r => v.data ++ r)
      | none => .error ("placeholder " ++ String.mk acc.reverse ++ " is missing")
    else strfmtGo vars cs (some (c :: acc))

/-- Modelled from the spec: the external `strfmt` crate (§6 "format
strings with named placeholders") substitutes each named placeholder
from the variable map and errors on a missing placeholder or malformed
syntax.  A deterministic pure function, which is all the pipeline relies
on. -/
def strfmt (tmpl : String) (vars : List (String × String)) :
    Except String String :=
  (strfmtGo vars tmpl.data none).map String.mk

/-- Modelled from the spec: the external HTML minifier is one of three
pure `minify(...) -> Result<String, Error>` functions (§6) whose
algorithm is out of scope (§1); modelled as the identity, which keeps
its purity and its position in the error chain. -/
def minifyHtml (s : String) : Except String String := .ok s

/-- Modelled from the spec: `fmt_markdown` (missing `shared.rs`) is the
external markdown-to-HTML renderer (§6); its output is opaque to every
claim, so it is modelled as the identity on the markdown text. -/
def fmtMarkdown (md : String) : String := md

/-- The builder's mutable navigation cache (`Builder::nav_cache`). -/
structure BuilderState where
  navCache : Option String
deriving DecidableEq

/-- The nav-fragment computation done on a cache miss: format the nav
template with the default variables (`Builder::build_nav`, miss path). -/
def renderNav (cfg : Config) : Except String String :=
  match strfmt cfg.navTemplate (defaultFormat cfg) with
  | .ok s => .ok s
  | .error e => .error ("Unable to format navbar: " ++ e)

/-- Embeds `Builder::build_nav`: return the cached fragment when
present, otherwise format the nav template. -/
def buildNav (cfg : Config) (b : BuilderState) : Except String String :=
  match b.navCache with
  | some cached => .ok cached
  | none => renderNav cfg

/-- Instrumented `build_nav` that also reports how many times the
nav-builder (the template formatting) actually ran during the call. -/
def buildNavCounted (cfg : Config) (b : BuilderState) :
    Except String (String × Nat) :=
  match b.navCache with
  | some cached => .ok (cached, 0)
  | none => (renderNav cfg).map (fun s => (s, 1))

/-- Embeds `Builder::prebuild_nav`: compute the fragment once and store
it in the cache. -/
def prebuildNav (cfg : Config) (b : BuilderState) :
    Except String BuilderState :=
  (buildNav cfg b).map (fun s => { navCache := some s })

/-- Embeds the data captured by `Builder::create_output_in_thread`'s
closure: one render job (spec §3 `RenderJob`). -/
structure RenderJob where
  nav : String
  name : String
  description : String
  targetUrl : Url
  template : String
  vars : List (String × String)
deriving DecidableEq

/-- The page title computed in `create_output_in_thread`:
`"{name} - {project} Docs"`, or `"{project} Docs"` when the name is
empty. -/
def pageTitle (cfg : Config) (name : String) : String :=
  if name = "" then cfg.projectName ++ " Docs"
  else name ++ " - " ++ cfg.projectName ++ " Docs"

/-- Embeds the `metadata.json` payload written by
`create_output_in_thread`:
`format!(r#"{{"title": "{}", "description": "{}"}}"#, title, description)`
— the two strings are spliced verbatim, with no JSON escaping.
(The string is built right-associated; string append is associative, so
this is the same text.) -/
def metadataBytes (title description : String) : String :=
  "\x7b\"title\": \"" ++
    (title ++ ("\", \"description\": \"" ++ (description ++ "\"\x7d")))

/-- One file written below the output directory. -/
structure FileWrite where
  path : Url
  content : String
deriving DecidableEq

/-- Error mapping `Unable to format {target_url}: {e}`. -/
def mapFmtErr (u : Url) : Except String String → Except String String
  | .ok s => .ok s
  | .error e => .error ("Unable to format " ++ urlToString u ++ ": " ++ e)

/-- Error mapping `Unable to format head for {target_url}: {e}`. -/
def mapHeadErr (u : Url) : Except String String → Except String String
  | .ok s => .ok s
  | .error e =>
    .error ("Unable to format head for " ++ urlToString u ++ ": " ++ e)

/-- The template-variable map built at the start of
`create_output_in_thread`: the default variables extended with the page
URL, title and description, extended with the entry's own variables. -/
def pageFmtVars (cfg : Config) (job : RenderJob) : List (String × String) :=
  extendKV (extendKV (defaultFormat cfg)
    [("page_url", toAbsolute cfg job.targetUrl),
     ("page_title", pageTitle cfg job.name),
     ("page_description", job.description)]) job.vars

/-- The variable map for the outer page template: head content, the
shared nav fragment, and the minified inner content. -/
def pageOuterVars (cfg : Config) (job : RenderJob)
    (headContent content : String) : List (String × String) :=
  extendKV (defaultFormat cfg)
    [("head_content", headContent),
     ("navbar_content", job.nav),
     ("main_content", content)]

/-- Embeds the body of `Builder::create_output_in_thread`: compute the
page title, format and minify the content template, format the head,
assemble and minify the outer page, create the output directory (the
`dirOk` flag models whether `create_dir_all` succeeds), and write
`metadata.json`, `content.html` and `index.html` under the job's target
URL.  File writes themselves are modelled as succeeding; directory
creation is the I/O failure mode the claims exercise. -/
def createOutputInThread (cfg : Config) (dirOk : Bool) (job : RenderJob) :
    Except String (List FileWrite) :=
  match mapFmtErr job.targetUrl (strfmt job.template (pageFmtVars cfg job)) with
  | .error e => .error e
  | .ok contentRaw =>
    match minifyHtml contentRaw with
    | .error e => .error e
    | .ok content =>
      match mapHeadErr job.targetUrl
          (strfmt cfg.headTemplate (pageFmtVars cfg job)) with
      | .error e => .error e
      | .ok headContent =>
        match mapFmtErr job.targetUrl (strfmt cfg.pageTemplate
            (pageOuterVars cfg job headContent content)) with
        | .error e => .error e
        | .ok pageRaw =>
          match minifyHtml pageRaw with
          | .error e => .error e
          | .ok page =>
            if dirOk then
              .ok [⟨job.targetUrl ++ ["metadata.json"],
                      metadataBytes (pageTitle cfg job.name) job.description⟩,
                   ⟨job.targetUrl ++ ["content.html"], content⟩,
                   ⟨job.targetUrl ++ ["index.html"], page⟩]
            else
              .error ("Unable to create directory for "
                ++ urlToString job.targetUrl ++ ": io error")

/-- Embeds `Builder::create_output_for`: look up the (cached) nav
fragment and package the entry's data as a render job for the
render/write phase. -/
def createOutputFor (cfg : Config) (b : BuilderState) (name descr : String)
    (url : Url) (template : String) (vars : List (String × String)) :
    Except String RenderJob :=
  (buildNav cfg b).map (fun nav => ⟨nav, name, descr, url, template, vars⟩)

/-- Modelled from the spec: `OutputEntry::description` comes from the
missing `traits.rs`; no claim depends on its value, so it is modelled as
the empty string for tutorials and tutorial folders. -/
def tutorialDescription (_t : Tutorial) : String := ""

/-- Modelled from the spec, as `tutorialDescription`. -/
def folderDescription (_f : TutorialFolder) : String := ""

/-- Embeds `Tutorial`'s `OutputEntry::output`: the tutorial template
with the (name-derived!) title and the rendered markdown content. -/
def tutorialOutput (cfg : Config) (t : Tutorial) :
    String × List (String × String) :=
  (cfg.tutorialTemplate,
   [("title", Tutorial.name t), ("content", fmtMarkdown t.unparsedContent)])

/-- The render job created for one tutorial
(`Tutorial::build` → `Builder::create_output_for`). -/
def tutorialJob (cfg : Config) (b : BuilderState) (t : Tutorial) :
    Except String RenderJob :=
  createOutputFor cfg b (Tutorial.name t) (tutorialDescription t)
    (Tutorial.url t) (tutorialOutput cfg t).1 (tutorialOutput cfg t).2

/-- Modelled from the spec: `fmt_section` (missing `shared.rs`) renders
a titled HTML section around the given fragments. -/
def fmtSection (title : String) (items : List String) : String :=
  "<section><h2>" ++ title ++ "</h2>" ++ String.intercalate "" items
    ++ "</section>"

/-- Embeds `TutorialFolder`'s `OutputEntry::output`: with an index body,
the tutorial template over the rendered index markdown; without one, the
tutorial-index template with a links section over the folder's
tutorials. -/
def folderOutput (cfg : Config) (f : TutorialFolder) :
    String × List (String × String) :=
  match f.index with
  | some idx =>
    (cfg.tutorialTemplate,
     [("title", TutorialFolder.name f), ("content", fmtMarkdown idx)])
  | none =>
    (cfg.tutorialIndexTemplate,
     [("title", TutorialFolder.name f),
      ("links", fmtSection "Pages" (f.tutorials.map (fun p =>
        "<ul><a href=\"" ++ toAbsolute cfg (Tutorial.url p.2) ++ "\">"
          ++ p.2.title ++ "</a></ul>")))])

/-- Render jobs for a list of tutorials, in map order, propagating the
first error (`Tutorial::build` inside `TutorialFolder::build`'s loop). -/
def tutorialListJobs (cfg : Config) (b : BuilderState) :
    List (String × Tutorial) → Except String (List RenderJob)
  | [] => .ok []
  | (_, t) :: rest =>
    match tutorialJob cfg b t with
    | .error e => .error e
    | .ok j =>
      match tutorialListJobs cfg b rest with
      | .error e => .error e
      | .ok r => .ok (j :: r)

/-!
Embeds `TutorialFolder::build`: first the folder's own page, then the
sub-folders, then the tutorials, collecting every spawned job and
propagating the first error.
-/
mutual

def folderBuildJobs (cfg : Config) (b : BuilderState) :
    TutorialFolder → Except String (List RenderJob)
  | .mk isRoot p idx folders tutorials =>
    match createOutputFor cfg b
        (TutorialFolder.name (.mk isRoot p idx folders tutorials))
        (folderDescription (.mk isRoot p idx folders tutorials))
        (TutorialFolder.url (.mk isRoot p idx folders tutorials))
        (folderOutput cfg (.mk isRoot p idx folders tutorials)).1
        (folderOutput cfg (.mk isRoot p idx folders tutorials)).2 with
    | .error e => .error e
    | .ok selfJob =>
      match folderListJobs cfg b folders with
      | .error e => .error e
      | .ok subF =>
        match tutorialListJobs cfg b tutorials with
        | .error e => .error e
        | .ok subT => .ok (selfJob :: (subF ++ subT))

def folderListJobs (cfg : Config) (b : BuilderState) :
    List (String × TutorialFolder) → Except String (List RenderJob)
  | [] => .ok []
  | (_, f) :: rest =>
    match folderBuildJobs cfg b f with
    | .error e => .error e
    | .ok a =>
      match folderListJobs cfg b rest with
      | .error e => .error e
      | .ok r => .ok (a ++ r)

end

/-! ## Phase 2: render and write (from `Builder::build`)

`Builder::build` collects the spawned handles, awaits them all with
`futures::future::join_all`, and only then inspects the results with
`collect::<Result<...>>`, which returns the first error in submission
order.  Concurrency is modelled by its observable outcome: every job
produces its own result (and its writes, when it succeeds) regardless of
the other jobs, and only afterwards are the results folded. -/

/-- Writes produced by all jobs that succeeded (join_all awaits every
job, and nothing is rolled back). -/
def collectWrites : List (Except String (List FileWrite)) → List FileWrite
  | [] => []
  | .ok ws :: rest => ws ++ collectWrites rest
  | .error _ :: rest => collectWrites rest

/-- The `collect::<Result<...>>` step: the first error in submission
order, or success. -/
def firstFailure : List (Except String (List FileWrite)) → Except String Unit
  | [] => .ok ()
  | .ok _ :: rest => firstFailure rest
  | .error e :: _ => .error e

/-- The outcome of Phase 2 on a list of per-job results: the artifacts
on disk and the build result. -/
def phase2 (results : List (Except String (List FileWrite))) :
    List FileWrite × Except String Unit :=
  (collectWrites results, firstFailure results)

/-! ## A JSON well-formedness checker (RFC 8259 grammar)

Used to settle what the unescaped `metadata.json` payload parses as. -/

/-- JSON whitespace skipping. -/
def skipWs : List Char → List Char
  | [] => []
  | c :: cs =>
    if c = ' ' || c = '\n' || c = '\t' || c = '\r' then skipWs cs else c :: cs

/-- Hexadecimal digit test for `\uXXXX` escapes. -/
def isHexDigit (c : Char) : Bool :=
  ('0' ≤ c && c ≤ '9') || ('a' ≤ c && c ≤ 'f') || ('A' ≤ c && c ≤ 'F')

/-- Parse the body of a JSON string after the opening quote, returning
the input following the closing quote: unescaped quote ends the string,
escapes must be legal, raw control characters are forbidden. -/
def parseStrBody : List Char → Option (List Char)
  | [] => none
  | c :: cs =>
    if c = '"' then some cs
    else if c = '\\' then
      match cs with
      | [] => none
      | e :: cs2 =>
        if e = 'u' then
          match cs2 with
          | h1 :: h2 :: h3 :: h4 :: cs3 =>
            if isHexDigit h1 && isHexDigit h2 && isHexDigit h3 && isHexDigit h4
            then parseStrBody cs3 else none
          | _ => none
        else if e = '"' || e = '\\' || e = '/' || e = 'b' || e = 'f'
            || e = 'n' || e = 'r' || e = 't' then
          parseStrBody cs2
        else none
    else if c.toNat < 32 then none
    else parseStrBody cs

/-- Drop a (possibly empty) run of decimal digits. -/
def dropDigits : List Char → List Char
  | [] => []
  | c :: cs => if c.isDigit then dropDigits cs else c :: cs

/-- Parse the fraction and exponent parts of a JSON number. -/
def numFracExp (s : List Char) : Option (List Char) :=
  let s2 : Option (List Char) :=
    match s with
    | '.' :: r =>
      match r with
      | c :: cs => if c.isDigit then some (dropDigits cs) else none
      | [] => none
    | _ => some s
  match s2 with
  | none => none
  | some s3 =>
    match s3 with
    | e :: r =>
      if e = 'e' || e = 'E' then
        let r2 : List Char :=
          match r with
          | '+' :: rr => rr
          | '-' :: rr => rr
          | _ => r
        match r2 with
        | c :: cs => if c.isDigit then some (dropDigits cs) else none
        | [] => none
      else some s3
    | [] => some s3

/-- Parse a JSON number (`-?(0|[1-9][0-9]*)(.[0-9]+)?([eE][+-]?[0-9]+)?`;
a leading zero followed by more digits leaves the surplus digits in the
remainder, which makes the surrounding parse fail as RFC 8259 demands). -/
def parseNumber (s : List Char) : Option (List Char) :=
  let s1 : List Char :=
    match s with
    | '-' :: r => r
    | _ => s
  match s1 with
  | [] => none
  | c :: cs =>
    if c = '0' then numFracExp cs
    else if c.isDigit then numFracExp (dropDigits cs)
    else none

/-!
Fueled recursive-descent JSON value parser.  The fuel only bounds the
nesting/segment recursion; one unit is consumed per value or member
step, so an input of length `n` never needs more than `n + 1` fuel.
-/
mutual

def parseValue : Nat → List Char → Option (List Char)
  | 0, _ => none
  | fuel + 1, s =>
    match skipWs s with
    | [] => none
    | c :: cs =>
      if c = lbrace then
        match skipWs cs with
        | d :: ds => if d = rbrace then some ds else parseMembers fuel (d :: ds)
        | [] => none
      else if c = '[' then
        match skipWs cs with
        | d :: ds => if d = ']' then some ds else parseElems fuel (d :: ds)
        | [] => none
      else if c = '"' then parseStrBody cs
      else if c = 't' then
        match cs with
        | 'r' :: 'u' :: 'e' :: r => some r
        | _ => none
      else if c = 'f' then
        match cs with
        | 'a' :: 'l' :: 's' :: 'e' :: r => some r
        | _ => none
      else if c = 'n' then
        match cs with
        | 'u' :: 'l' :: 'l' :: r => some r
        | _ => none
      else parseNumber (c :: cs)

def parseMembers : Nat → List Char → Option (List Char)
  | 0, _ => none
  | fuel + 1, s =>
    match s with
    | [] => none
    | c :: cs =>
      if c = '"' then
        match parseStrBody cs with
        | none => none
        | some r1 =>
          match skipWs r1 with
          | ':' :: r2 =>
            match parseValue fuel r2 with
            | none => none
            | some r3 =>
              match skipWs r3 with
              | ',' :: r4 =>
                match skipWs r4 with
                | d :: ds => parseMembers fuel (d :: ds)
                | [] => none
              | d :: ds => if d = rbrace then some ds else none
              | [] => none
          | _ => none
      else none

def parseElems : Nat → List Char → Option (List Char)
  | 0, _ => none
  | fuel + 1, s =>
    match parseValue fuel s with
    | none => none
    | some r1 =>
      match skipWs r1 with
      | ',' :: r2 => parseElems fuel r2
      | ']' :: r2 => some r2
      | _ => none

end

/-- A string is well-formed JSON when a full value parse consumes it
entirely (up to trailing whitespace). -/
def jsonWellFormed (s : String) : Bool :=
  match parseValue (s.data.length + 1) s.data with
  | some r => (skipWs r).isEmpty
  | none => false

/-- A character that may appear raw inside a JSON string literal without
changing its meaning: not a quote, not a backslash, not a control
character. -/
def jsonSafeChar (c : Char) : Bool :=
  !(c = '"') && !(c = '\\') && !(c.toNat < 32)

/-- Every character of the string is JSON-safe. -/
def jsonSafeStr (s : String) : Bool :=
  s.data.all jsonSafeChar

/-- The character-level view of `metadataBytes`: a fixed skeleton with
the two strings spliced in raw. -/
def metadataData (t d : String) : List Char :=
  lbrace :: '"' :: 't' :: 'i' :: 't' :: 'l' :: 'e' :: '"' :: ':' :: ' ' :: '"' ::
    (t.data ++ ('"' :: ',' :: ' ' :: '"' :: 'd' :: 'e' :: 's' :: 'c' :: 'r' ::
      'i' :: 'p' :: 't' :: 'i' :: 'o' :: 'n' :: '"' :: ':' :: ' ' :: '"' ::
      (d.data ++ ('"' :: rbrace :: []))))

/-! ## Theorems -/

theorem lookupKV_insertKV {α : Type} (m : List (String × α)) (k : String) (v : α)
    (key : String) :
    lookupKV (insertKV m k v) key = if k = key then some v else lookupKV m key := by
  induction m with
  | nil =>
    by_cases h : k = key <;> simp [insertKV, lookupKV, h]
  | cons p rest ih =>
    obtain ⟨k', v'⟩ := p
    by_cases h1 : k' = k
    · subst h1
      by_cases h2 : k' = key <;> simp [insertKV, lookupKV, h2]
    · by_cases h3 : k' = key
      · have hk : ¬k = key := fun hh => h1 (h3.trans hh.symm)
        have h1' : ¬key = k := fun hh => h1 (h3.trans hh)
        simp [insertKV, lookupKV, h1', h3, hk]
      · simp [insertKV, lookupKV, h1, h3, ih]

theorem lookupKV_extendKV_isSome {α : Type} (m2 m1 : List (String × α))
    (key : String) :
    (lookupKV (extendKV m1 m2) key).isSome =
      ((lookupKV m1 key).isSome || (lookupKV m2 key).isSome) := by
  induction m2 generalizing m1 with
  | nil => simp [extendKV, lookupKV]
  | cons p rest ih =>
    obtain ⟨k, v⟩ := p
    show (lookupKV (extendKV (insertKV m1 k v) rest) key).isSome = _
    rw [ih]
    rw [lookupKV_insertKV]
    by_cases h : k = key <;> simp [lookupKV, h]

/-- C1 counterexample.  The claim states that merging two declarations of
the same namespace yields a child set that is the union of both
declarations' children "including the case where the shared children are
themselves namespaces that must be merged recursively".  On
`twoNestedNsRoot` the built tree's unique `N.M` namespace contains only
`Y`: the `X` registered by the first declaration's `M` is lost, because
`Namespace::load_entries` merges with a one-level `HashMap::extend` that
overwrites the whole nested `M` entry. -/
theorem C1_counterexample :
    ((getNsEntries (loadRoot twoNestedNsRoot) "N").bind
        (fun e => getNsEntries e "M")).map
      (fun m => ((lookupKV m "X").isSome, (lookupKV m "Y").isSome))
      = some (false, true) := by
  rfl

/-- C1 (amended): given two namespace declarations with the same name `n`
under the same parent, `load_entries` produces exactly one `n` entry,
whose entry map is the first declaration's map extended by the second's
(`HashMap::extend`): the set of child names is the union of both
declarations' child-name sets, but on a name collision the second
declaration's child overwrites the first's wholesale — identically-named
nested namespaces are not merged recursively.  In particular, for
declarations `N { A }` and `N { B }` with distinct child names the single
`N` node has exactly the children `{A, B}`. -/
theorem C1_namespace_merge_is_shallow_extend (n : String) (d1 d2 : Bool)
    (c1 c2 : List AstNode) :
    loadEntriesList []
        [.mk .namespaceDecl (some n) false d1 c1,
         .mk .namespaceDecl (some n) false d2 c2]
      = [(n, .nsItem (extendKV (loadEntriesList [] c1) (loadEntriesList [] c2)))]
    ∧ ∀ k, (lookupKV (extendKV (loadEntriesList [] c1) (loadEntriesList [] c2)) k).isSome
        = ((lookupKV (loadEntriesList [] c1) k).isSome
            || (lookupKV (loadEntriesList [] c2) k).isSome) := by
  constructor
  · simp [loadEntriesList, loadChild, CppItemKind.from, lookupKV, insertKV]
  · intro k
    rw [lookupKV_extendKV_isSome]

/-- C4: for Struct and Class AST children, only definitions are
registered — a forward declaration leaves the entry map unchanged, so
given a definition and a forward declaration of the same qualified name
(in either order) only the definition appears — and a later definition
with the same name overwrites an earlier one. -/
theorem C4_only_definitions_registered_and_later_overwrites :
    (∀ (acc : Entries) (n : String) (c : List AstNode),
        loadChild acc (.mk .classDecl (some n) false false c) = acc
          ∧ loadChild acc (.mk .structDecl (some n) false false c) = acc)
    ∧ (∀ (acc : Entries) (n : String) (c1 c2 : List AstNode),
        lookupKV (loadEntriesList acc
            [.mk .classDecl (some n) false true c1,
             .mk .classDecl (some n) false true c2]) n
          = some (.classItem (.mk .classDecl (some n) false true c2)))
    ∧ (∀ (acc : Entries) (n : String) (cd cf : List AstNode),
        lookupKV (loadEntriesList acc
            [.mk .classDecl (some n) false false cf,
             .mk .classDecl (some n) false true cd]) n
          = some (.classItem (.mk .classDecl (some n) false true cd))
          ∧ lookupKV (loadEntriesList acc
              [.mk .classDecl (some n) false true cd,
               .mk .classDecl (some n) false false cf]) n
            = some (.classItem (.mk .classDecl (some n) false true cd))) := by
  refine ⟨fun acc n c => ⟨?_, ?_⟩, fun acc n c1 c2 => ?_, fun acc n cd cf => ⟨?_, ?_⟩⟩
  · simp [loadChild, CppItemKind.from]
  · simp [loadChild, CppItemKind.from]
  · simp [loadEntriesList, loadChild, CppItemKind.from, lookupKV_insertKV]
  · simp [loadEntriesList, loadChild, CppItemKind.from, lookupKV_insertKV]
  · simp [loadEntriesList, loadChild, CppItemKind.from, lookupKV_insertKV]

/-- C5: if a non-namespace sibling entry already occupies a name, loading
a namespace declaration with that same name leaves the entry map
completely unchanged: the new namespace's contents are silently
discarded (`load_entries` has no error channel at all) and the existing
entry stays in the tree as it was. -/
theorem C5_nonnamespace_sibling_discards_namespace (acc : Entries) (n : String)
    (v : CppItem) (d : Bool) (ch : List AstNode)
    (hfound : lookupKV acc n = some v) (hns : v.isNs = false) :
    loadChild acc (.mk .namespaceDecl (some n) false d ch) = acc := by
  cases v with
  | nsItem es => simp [CppItem.isNs] at hns
  | classItem e => simp [loadChild, CppItemKind.from, hfound]
  | structItem e => simp [loadChild, CppItemKind.from, hfound]
  | functionItem e => simp [loadChild, CppItemKind.from, hfound]

/-- Witness for C5: a class `N` occupies the name, then a namespace
declaration `N { A }` is loaded and everything it contains is dropped. -/
theorem C5_nonnamespace_sibling_discards_namespace_witness :
    loadChild [("N", .classItem (.mk .classDecl (some "N") false true []))]
        (.mk .namespaceDecl (some "N") false true
          [.mk .classDecl (some "A") false true []])
      = [("N", .classItem (.mk .classDecl (some "N") false true []))] :=
  C5_nonnamespace_sibling_discards_namespace _ "N"
    (.classItem (.mk .classDecl (some "N") false true [])) true _ rfl rfl

theorem rawFileName_concat : ∀ (u : Url) (x : String),
    rawFileName (u ++ [x]) = some x
  | [], _ => rfl
  | a :: u, x => by
    have ih := rawFileName_concat u x
    show rawFileName (a :: (u ++ [x])) = some x
    cases hu : u ++ [x] with
    | nil => simp at hu
    | cons b bs =>
      show rawFileName (b :: bs) = some x
      rw [← hu]
      exact ih

theorem all_insertKV {α : Type} (P : α → Bool) (m : List (String × α)) (k : String)
    (v : α) (hm : m.all (fun p => P p.2) = true) (hv : P v = true) :
    (insertKV m k v).all (fun p => P p.2) = true := by
  induction m with
  | nil => simp [insertKV, hv]
  | cons p rest ih =>
    obtain ⟨k', v'⟩ := p
    simp only [List.all_cons, Bool.and_eq_true] at hm
    by_cases h : k' = k
    · simp [insertKV, h, hv, hm.2]
    · simp [insertKV, h, hm.1, ih hm.2]

theorem folderListOk_eq_all (m : List (String × TutorialFolder)) :
    folderListOk m = m.all fun p => noSpecialTutorials p.2 := by
  induction m with
  | nil => rfl
  | cons p rest ih => obtain ⟨k, f⟩ := p; simp [folderListOk, ih]

theorem folderListOk_insertKV (m : List (String × TutorialFolder)) (k : String)
    (f : TutorialFolder) (hm : folderListOk m = true)
    (hf : noSpecialTutorials f = true) :
    folderListOk (insertKV m k f) = true := by
  rw [folderListOk_eq_all] at hm ⊢
  exact all_insertKV _ m k f hm hf

theorem scanEntries_noSpecial_aux (n : Nat) :
    ∀ (es : List FsNode), sizeOf es < n →
      ∀ (selfPath : Url) (accF : List (String × TutorialFolder))
        (accT : List (String × Tutorial)),
        folderListOk accF = true → tutorialListOk accT = true →
          folderListOk (scanEntries selfPath accF accT es).1 = true
            ∧ tutorialListOk (scanEntries selfPath accF accT es).2 = true := by
  induction n using Nat.strong_induction_on with
  | _ n IH =>
    intro es hsize selfPath accF accT hF hT
    match es with
    | [] =>
      simp only [scanEntries]
      exact ⟨hF, hT⟩
    | .dir dname dentries :: rest =>
      have hsz1 : sizeOf dentries < sizeOf (FsNode.dir dname dentries :: rest) := by
        simp only [List.cons.sizeOf_spec, FsNode.dir.sizeOf_spec]
        omega
      have hsz2 : sizeOf rest < sizeOf (FsNode.dir dname dentries :: rest) := by
        simp only [List.cons.sizeOf_spec, FsNode.dir.sizeOf_spec]
        omega
      cases hsub : fromFolder (selfPath ++ [dname]) dentries with
      | none =>
        simp only [scanEntries, hsub]
        exact IH _ hsize rest hsz2 selfPath accF accT hF hT
      | some folder =>
        have hfolder : noSpecialTutorials folder = true := by
          rw [fromFolder] at hsub
          split at hsub
          · cases hsub
            have hscan := IH _ hsize dentries hsz1 (selfPath ++ [dname])
              [] [] rfl rfl
            rw [noSpecialTutorials]
            exact (Bool.and_eq_true _ _).mpr ⟨hscan.2, hscan.1⟩
          · cases hsub
        simp only [scanEntries, hsub]
        exact IH _ hsize rest hsz2 selfPath _ accT
          (folderListOk_insertKV accF _ folder hF hfolder) hT
    | .file fname content :: rest =>
      have hsz2 : sizeOf rest < sizeOf (FsNode.file fname content :: rest) := by
        simp only [List.cons.sizeOf_spec, FsNode.file.sizeOf_spec]
        omega
      by_cases hq : qualifiesAsTutorial fname = true
      · simp only [scanEntries, hq, if_true]
        have hts : isSpecialMd fname = false := by
          have h2 := hq
          unfold qualifiesAsTutorial at h2
          rcases (Bool.and_eq_true _ _).mp h2 with ⟨-, h3⟩
          simpa using h3
        refine IH _ hsize rest hsz2 selfPath accF _ hF ?_
        refine all_insertKV _ accT _ _ hT ?_
        simp [tutOk, rawFileName_concat, hts]
      · simp only [scanEntries, hq, if_false, Bool.false_eq_true]
        exact IH _ hsize rest hsz2 selfPath accF accT hF hT

theorem scanEntries_noSpecial (selfPath : Url)
    (accF : List (String × TutorialFolder)) (accT : List (String × Tutorial))
    (es : List FsNode) (hF : folderListOk accF = true)
    (hT : tutorialListOk accT = true) :
    folderListOk (scanEntries selfPath accF accT es).1 = true
      ∧ tutorialListOk (scanEntries selfPath accF accT es).2 = true :=
  scanEntries_noSpecial_aux (sizeOf es + 1) es (Nat.lt_succ_self _)
    selfPath accF accT hF hT

theorem fromFolder_noSpecial (selfPath : Url) (entries : List FsNode)
    (f : TutorialFolder) (h : fromFolder selfPath entries = some f) :
    noSpecialTutorials f = true := by
  have hscan := scanEntries_noSpecial selfPath [] [] entries rfl rfl
  rw [fromFolder] at h
  split at h
  · cases h
    rw [noSpecialTutorials]
    exact (Bool.and_eq_true _ _).mpr ⟨hscan.2, hscan.1⟩
  · cases h

/-- C6 counterexample.  The claim states that a `readme.md`/`index.md`
file (case-insensitively) is "treated as its folder's index content …
the folder's index body is taken from that file when present".  In a
folder holding `README.md` (content `# Hello`) and a qualifying tutorial
`a.md`, the scan produces a folder whose only tutorial is `a` (so the
readme correctly produces no leaf) but whose index body is `none`: the
readme's content is not used as the index, because `from_folder` reads
the index only from a file literally named `index.md`. -/
theorem C6_counterexample :
    (fromFolder [] [.file "README.md" "# Hello", .file "a.md" "# A"]).map
      (fun f => (f.tutorials.map Prod.fst, f.index)) = some (["a"], none) := by
  simp +decide [fromFolder, scanEntries]

/-- C6 (amended): during the tutorial directory scan no file whose name
matches `readme.md`/`index.md` case-insensitively produces a `Tutorial`
leaf anywhere in the resulting tree, but the folder's index body is
taken only from the file literally named `index.md` when present
(`readme.md` and differently-cased variants are skipped entirely and
never used as index content). -/
theorem C6_special_files_never_tutorials (selfPath : Url)
    (entries : List FsNode) (f : TutorialFolder)
    (h : fromFolder selfPath entries = some f) :
    noSpecialTutorials f = true ∧ f.index = findIndexContent entries := by
  refine ⟨fromFolder_noSpecial selfPath entries f h, ?_⟩
  rw [fromFolder] at h
  split at h
  · cases h
    rfl
  · cases h

/-- Witness for C6: a folder with `Readme.md`, a qualifying `g.md` and
an exact `index.md` yields a tree with only the `g` tutorial and the
`index.md` contents as its index body. -/
theorem C6_special_files_never_tutorials_witness :
    noSpecialTutorials
        (.mk false [] (some "IDX") [] [("g", ⟨["g.md"], "G", "# G"⟩)]) = true
    ∧ TutorialFolder.index
        (.mk false [] (some "IDX") [] [("g", ⟨["g.md"], "G", "# G"⟩)])
      = findIndexContent
          [.file "Readme.md" "r", .file "g.md" "# G", .file "index.md" "IDX"] :=
  C6_special_files_never_tutorials []
    [.file "Readme.md" "r", .file "g.md" "# G", .file "index.md" "IDX"] _
    (by simp +decide [fromFolder, scanEntries])

/-- C7 counterexample.  The claim states that an unreadable tutorial
file is "represented uniformly as a descriptive error message … rather
than being silently swallowed or escaping through another channel".  On
the filesystem where every read fails, `Tutorial::new` panics (via
`.expect`) instead of returning an error on the pipeline's uniform
`Result<_, String>` channel: the failure escapes through the panic
channel. -/
theorem C7_counterexample :
    tutorialNewRun emptyFs ["guide.md"]
        = .panicked "Unable to read tutorial guide.md"
    ∧ (tutorialNewRun emptyFs ["guide.md"]).isUniformErr = false :=
  ⟨rfl, rfl⟩

/-- C7 (amended): an unreadable tutorial file aborts the build
immediately with a panic whose message is descriptive and carries the
offending tutorial path (`Unable to read tutorial <path>`); the failure
is not silently swallowed, but it is raised as a panic rather than being
returned through the uniform `Result<_, String>` error channel used by
the rest of the pipeline. -/
theorem C7_unreadable_tutorial_panics (fs : Fs) (path : Url)
    (h : fs path = none) :
    tutorialNewRun fs path
      = .panicked ("Unable to read tutorial " ++ urlToString path) := by
  unfold tutorialNewRun
  rw [h]

/-- Witness for C7 at a concrete unreadable path. -/
theorem C7_unreadable_tutorial_panics_witness :
    tutorialNewRun emptyFs ["intro.md"]
      = .panicked ("Unable to read tutorial " ++ urlToString ["intro.md"]) :=
  C7_unreadable_tutorial_panics emptyFs ["intro.md"] rfl

theorem createOutputInThread_ok_shape (cfg : Config) (job : RenderJob)
    (ws : List FileWrite) (h : createOutputInThread cfg true job = .ok ws) :
    ∃ content page,
      ws = [⟨job.targetUrl ++ ["metadata.json"],
              metadataBytes (pageTitle cfg job.name) job.description⟩,
            ⟨job.targetUrl ++ ["content.html"], content⟩,
            ⟨job.targetUrl ++ ["index.html"], page⟩] := by
  unfold createOutputInThread at h
  cases h1 : mapFmtErr job.targetUrl
      (strfmt job.template (pageFmtVars cfg job)) with
  | error e => rw [h1] at h; cases h
  | ok contentRaw =>
    rw [h1] at h
    simp only [minifyHtml] at h
    cases h2 : mapHeadErr job.targetUrl
        (strfmt cfg.headTemplate (pageFmtVars cfg job)) with
    | error e => rw [h2] at h; cases h
    | ok headContent =>
      rw [h2] at h
      simp only [minifyHtml] at h
      cases h3 : mapFmtErr job.targetUrl (strfmt cfg.pageTemplate
          (pageOuterVars cfg job headContent contentRaw)) with
      | error e => rw [h3] at h; cases h
      | ok pageRaw =>
        rw [h3] at h
        simp at h
        first
        | exact ⟨contentRaw, pageRaw, h⟩
        | exact ⟨contentRaw, pageRaw, h.symm⟩

/-- C2: in Phase 2 every submitted job runs to completion before results
are inspected; the build returns the first failure in submission order
(and succeeds when every job succeeded); artifacts written by succeeded
jobs are never rolled back, regardless of failures elsewhere; and a job
that fails to create its output directory fails only itself, with a
descriptive error. -/
theorem C2_phase2_first_failure_no_rollback :
    (∀ (pre post : List (Except String (List FileWrite))) (e : String),
        (∀ r ∈ pre, ∃ ws, r = .ok ws) →
        (phase2 (pre ++ .error e :: post)).2 = .error e)
    ∧ (∀ (results : List (Except String (List FileWrite)))
          (r : Except String (List FileWrite)) (ws : List FileWrite),
        r ∈ results → r = .ok ws → ∀ w ∈ ws, w ∈ (phase2 results).1)
    ∧ (∀ (results : List (Except String (List FileWrite))),
        (∀ r ∈ results, ∃ ws, r = .ok ws) → (phase2 results).2 = .ok ())
    ∧ (∀ (cfg : Config) (job : RenderJob) (ws : List FileWrite),
        createOutputInThread cfg true job = .ok ws →
        createOutputInThread cfg false job
          = .error ("Unable to create directory for "
              ++ urlToString job.targetUrl ++ ": io error")) := by
  refine ⟨?_, ?_, ?_, ?_⟩
  · intro pre post e hpre
    induction pre with
    | nil => rfl
    | cons r pre ih =>
      obtain ⟨ws, hws⟩ := hpre r (by simp)
      subst hws
      show firstFailure (.ok ws :: (pre ++ .error e :: post)) = .error e
      rw [firstFailure]
      exact ih (fun r hr => hpre r (by simp [hr]))
  · intro results
    induction results with
    | nil => intro r ws hr; simp at hr
    | cons q rest ih =>
      intro r ws hr hok w hw
      rcases List.mem_cons.mp hr with hq | hrest
      · subst hq
        subst hok
        show w ∈ collectWrites (.ok ws :: rest)
        rw [collectWrites]
        exact List.mem_append_left _ hw
      · have := ih r ws hrest hok w hw
        cases q with
        | ok qs =>
          show w ∈ collectWrites (.ok qs :: rest)
          rw [collectWrites]
          exact List.mem_append_right _ this
        | error e =>
          show w ∈ collectWrites (.error e :: rest)
          rw [collectWrites]
          exact this
  · intro results hall
    induction results with
    | nil => rfl
    | cons r rest ih =>
      obtain ⟨ws, hws⟩ := hall r (by simp)
      subst hws
      show firstFailure (.ok ws :: rest) = .ok ()
      rw [firstFailure]
      exact ih (fun r hr => hall r (by simp [hr]))
  · intro cfg job ws h
    unfold createOutputInThread at h ⊢
    cases h1 : mapFmtErr job.targetUrl
        (strfmt job.template (pageFmtVars cfg job)) with
    | error e => rw [h1] at h; cases h
    | ok contentRaw =>
      rw [h1] at h
      simp only [minifyHtml] at h ⊢
      cases h2 : mapHeadErr job.targetUrl
          (strfmt cfg.headTemplate (pageFmtVars cfg job)) with
      | error e => rw [h2] at h; cases h
      | ok headContent =>
        rw [h2] at h
        simp only [minifyHtml] at h ⊢
        cases h3 : mapFmtErr job.targetUrl (strfmt cfg.pageTemplate
            (pageOuterVars cfg job headContent contentRaw)) with
        | error e => rw [h3] at h; cases h
        | ok pageRaw => simp [minifyHtml]

/-- Witness for C2 at a concrete job list: the build reports the middle
job's failure, the last job's artifact survives, and flipping directory
creation to failing turns a succeeding concrete job into the
directory-creation error. -/
theorem C2_phase2_first_failure_no_rollback_witness :
    (phase2 [.ok [⟨["a"], "x"⟩], .error "boom", .ok [⟨["b"], "y"⟩]]).2
        = .error "boom"
    ∧ FileWrite.mk ["b"] "y"
        ∈ (phase2 [.ok [⟨["a"], "x"⟩], .error "boom", .ok [⟨["b"], "y"⟩]]).1
    ∧ createOutputInThread ⟨"Proj", "1", none, none, none,
          "N", "H", "P", "T", "I"⟩ false ⟨"NAV", "g", "", [], "T", []⟩
        = .error "Unable to create directory for : io error" :=
  ⟨C2_phase2_first_failure_no_rollback.1 [.ok [⟨["a"], "x"⟩]]
      [.ok [⟨["b"], "y"⟩]] "boom" (by simp),
   C2_phase2_first_failure_no_rollback.2.1
      [.ok [⟨["a"], "x"⟩], .error "boom", .ok [⟨["b"], "y"⟩]]
      (.ok [⟨["b"], "y"⟩]) [⟨["b"], "y"⟩] (by simp) rfl ⟨["b"], "y"⟩ (by simp),
   C2_phase2_first_failure_no_rollback.2.2.2 ⟨"Proj", "1", none, none, none,
      "N", "H", "P", "T", "I"⟩ ⟨"NAV", "g", "", [], "T", []⟩
      [⟨["metadata.json"], metadataBytes "g - Proj Docs" ""⟩,
       ⟨["content.html"], "T"⟩, ⟨["index.html"], "P"⟩] (by rfl)⟩

/-- C8: after the prebuild phase the cached navigation fragment is
exactly what recomputing it would produce (caching is a pure
optimization), `build_nav` returns that same string on every later call,
and rendering any number of pages performs zero further nav
computations: the fragment is computed exactly once per build, during
prebuild. -/
theorem C8_nav_prebuilt_once_and_pure (cfg : Config) (b' : BuilderState)
    (h : prebuildNav cfg { navCache := none } = .ok b') :
    buildNav cfg b' = renderNav cfg
    ∧ buildNavCounted cfg b' = (renderNav cfg).map (fun s => (s, 0)) := by
  unfold prebuildNav buildNav at h
  cases hr : renderNav cfg with
  | error e => rw [hr] at h; cases h
  | ok s =>
    rw [hr] at h
    cases h
    simp [buildNav, buildNavCounted, hr, Except.map]

/-- Witness for C8 at a concrete configuration whose nav template has no
placeholders. -/
theorem C8_nav_prebuilt_once_and_pure_witness :
    buildNav ⟨"Proj", "1", none, none, none, "NAVT", "H", "P", "T", "I"⟩
        ⟨some "NAVT"⟩
      = renderNav ⟨"Proj", "1", none, none, none, "NAVT", "H", "P", "T", "I"⟩
    ∧ buildNavCounted ⟨"Proj", "1", none, none, none, "NAVT", "H", "P", "T", "I"⟩
        ⟨some "NAVT"⟩
      = (renderNav ⟨"Proj", "1", none, none, none, "NAVT", "H", "P", "T", "I"⟩).map
          (fun s => (s, 0)) :=
  C8_nav_prebuilt_once_and_pure _ _ (by rfl)

/-- C3 counterexample.  The claim states that the rendered page title is
the markdown's first heading ("Getting Started - <project> Docs" for a
`guide.md` whose first heading is `# Getting Started`, at
`tutorials/guide/index.html`).  On that exact input the Tutorial's
stored `title` field is indeed "Getting Started", but the rendered page
title is computed from `entry.name()` — the file name with ".md"
removed — giving "guide - Proj Docs", and the page URL keeps the ".md"
segment (`url` joins `tutorials` with the stored file path). -/
theorem C3_counterexample :
    (match tutorialNewRun
        (fun p => if p = ["guide.md"]
          then some "# Getting Started\n\nWelcome." else none) ["guide.md"] with
     | .ok t => some (t.title,
        pageTitle ⟨"Proj", "1", none, none, none, "N", "H", "P", "T", "I"⟩
          (Tutorial.name t), Tutorial.url t)
     | _ => none)
      = some ("Getting Started", "guide - Proj Docs", ["tutorials", "guide.md"])
    ∧ "guide - Proj Docs" ≠ "Getting Started - Proj Docs" := by
  refine ⟨by decide, by decide⟩

/-- C3 (amended): the Tutorial's stored title — used for navigation and
folder-index links — is the first markdown heading falling back to the
raw file name; but the rendered page's title is derived from the file
name with ".md" removed (`"{name} - {project} Docs"`), ignoring the
heading, and the page is emitted under `tutorials/<file path>` with the
".md" still in the URL. -/
theorem C3_page_title_uses_file_name (cfg : Config) (b : BuilderState)
    (fs : Fs) (path : Url) (content fname : String) (t : Tutorial)
    (hread : fs path = some content) (hname : rawFileName path = some fname)
    (hnew : tutorialNewRun fs path = .ok t) :
    t.title = (extractTitleFromMd content).getD fname
    ∧ Tutorial.name t = rustReplace fname ".md" ""
    ∧ Tutorial.url t = "tutorials" :: path
    ∧ ∀ job, tutorialJob cfg b t = .ok job →
        job.name = rustReplace fname ".md" ""
        ∧ job.targetUrl = "tutorials" :: path
        ∧ ∀ ws, createOutputInThread cfg true job = .ok ws →
            ws.head? = some ⟨("tutorials" :: path) ++ ["metadata.json"],
              metadataBytes (pageTitle cfg (rustReplace fname ".md" ""))
                job.description⟩ := by
  unfold tutorialNewRun at hnew
  rw [hread, hname] at hnew
  cases hnew
  refine ⟨rfl, ?_, rfl, ?_⟩
  · simp [Tutorial.name, hname]
  · intro job hjob
    unfold tutorialJob createOutputFor at hjob
    cases hb : buildNav cfg b with
    | error e => rw [hb] at hjob; cases hjob
    | ok nav =>
      rw [hb] at hjob
      simp only [Except.map] at hjob
      cases hjob
      refine ⟨by simp [Tutorial.name, hname], rfl, ?_⟩
      intro ws hws
      obtain ⟨c, p, hshape⟩ := createOutputInThread_ok_shape cfg _ ws hws
      subst hshape
      simp [Tutorial.name, Tutorial.url, hname]

/-- Witness for C3 on the claim's own example input. -/
theorem C3_page_title_uses_file_name_witness :
    Tutorial.name ⟨["guide.md"], "Getting Started",
        "# Getting Started\n\nWelcome."⟩ = "guide"
    ∧ Tutorial.url ⟨["guide.md"], "Getting Started",
        "# Getting Started\n\nWelcome."⟩ = ["tutorials", "guide.md"] :=
  ⟨(C3_page_title_uses_file_name
      ⟨"Proj", "1", none, none, none, "N", "H", "P", "T", "I"⟩ ⟨some "NAV"⟩
      (fun p => if p = ["guide.md"]
        then some "# Getting Started\n\nWelcome." else none)
      ["guide.md"] "# Getting Started\n\nWelcome." "guide.md"
      ⟨["guide.md"], "Getting Started", "# Getting Started\n\nWelcome."⟩
      (by decide) rfl (by decide)).2.1.trans (by decide),
   (C3_page_title_uses_file_name
      ⟨"Proj", "1", none, none, none, "N", "H", "P", "T", "I"⟩ ⟨some "NAV"⟩
      (fun p => if p = ["guide.md"]
        then some "# Getting Started\n\nWelcome." else none)
      ["guide.md"] "# Getting Started\n\nWelcome." "guide.md"
      ⟨["guide.md"], "Getting Started", "# Getting Started\n\nWelcome."⟩
      (by decide) rfl (by decide)).2.2.1⟩

theorem fromConfig_isRoot (tcfg : Option (List FsNode)) :
    (fromConfig tcfg).isRoot = true := by
  cases tcfg with
  | none => rfl
  | some entries =>
    simp only [fromConfig]
    cases fromFolder [] entries with
    | none => rfl
    | some f => cases f; rfl

/-- C9: the tutorial-tree root entry always exists and is always built:
`from_config` yields a root folder (with empty contents when no tutorial
directory is configured or nothing qualifies) whose URL is the empty
path, and building the tutorial tree always emits its own page first, a
job whose target URL is the site root, rendered from the tutorial
templates, so the site root receives `metadata.json`, `content.html` and
`index.html`. -/
theorem C9_root_always_exists_and_built (tcfg : Option (List FsNode))
    (cfg : Config) (b : BuilderState) :
    (fromConfig tcfg).isRoot = true
    ∧ TutorialFolder.url (fromConfig tcfg) = []
    ∧ ∀ jobs, folderBuildJobs cfg b (fromConfig tcfg) = .ok jobs →
        ∃ job rest, jobs = job :: rest
          ∧ job.targetUrl = []
          ∧ (job.template = cfg.tutorialTemplate
              ∨ job.template = cfg.tutorialIndexTemplate)
          ∧ ∀ ws, createOutputInThread cfg true job = .ok ws →
              ws.map FileWrite.path
                = [["metadata.json"], ["content.html"], ["index.html"]] := by
  refine ⟨fromConfig_isRoot tcfg, ?_, ?_⟩
  · simp [TutorialFolder.url, fromConfig_isRoot tcfg]
  · intro jobs hjobs
    have hurl : TutorialFolder.url (fromConfig tcfg) = [] := by
      simp [TutorialFolder.url, fromConfig_isRoot tcfg]
    cases hF : fromConfig tcfg with
    | mk isR pth idx fl tl =>
      rw [hF] at hjobs hurl
      rw [folderBuildJobs] at hjobs
      cases hc : createOutputFor cfg b
          (TutorialFolder.name (.mk isR pth idx fl tl))
          (folderDescription (.mk isR pth idx fl tl))
          (TutorialFolder.url (.mk isR pth idx fl tl))
          (folderOutput cfg (.mk isR pth idx fl tl)).1
          (folderOutput cfg (.mk isR pth idx fl tl)).2 with
      | error e => rw [hc] at hjobs; cases hjobs
      | ok selfJob =>
        rw [hc] at hjobs
        cases hsf : folderListJobs cfg b fl with
        | error e => rw [hsf] at hjobs; cases hjobs
        | ok subF =>
          rw [hsf] at hjobs
          cases hst : tutorialListJobs cfg b tl with
          | error e => rw [hst] at hjobs; cases hjobs
          | ok subT =>
            rw [hst] at hjobs
            cases hjobs
            unfold createOutputFor at hc
            cases hb : buildNav cfg b with
            | error e => rw [hb] at hc; cases hc
            | ok nav =>
              rw [hb] at hc
              simp only [Except.map] at hc
              cases hc
              refine ⟨_, subF ++ subT, rfl, hurl, ?_, ?_⟩
              · unfold folderOutput
                cases idx with
                | none => right; rfl
                | some i => left; rfl
              · intro ws hws
                obtain ⟨c, p, hshape⟩ :=
                  createOutputInThread_ok_shape cfg _ ws hws
                subst hshape
                simp [hurl]

/-- Witness for C9: with no tutorial directory configured, the root
folder exists, is the root, sits at the empty URL, and its build emits a
first job at the site root. -/
theorem C9_root_always_exists_and_built_witness :
    (fromConfig none).isRoot = true
    ∧ TutorialFolder.url (fromConfig none) = [] :=
  ⟨(C9_root_always_exists_and_built none
      ⟨"Proj", "1", none, none, none, "N", "H", "P", "T", "I"⟩
      ⟨some "NAV"⟩).1,
   (C9_root_always_exists_and_built none
      ⟨"Proj", "1", none, none, none, "N", "H", "P", "T", "I"⟩
      ⟨some "NAV"⟩).2.1⟩

theorem metadataBytes_data (t d : String) :
    (metadataBytes t d).data = metadataData t d := rfl

theorem parseStrBody_quote (rest : List Char) :
    parseStrBody ('"' :: rest) = some rest := by
  rw [parseStrBody.eq_def]
  rfl

theorem parseStrBody_safeChar (c : Char) (rest : List Char) (h1 : ¬c = '"')
    (h2 : ¬c = '\\') (h3 : ¬c.toNat < 32) :
    parseStrBody (c :: rest) = parseStrBody rest := by
  rw [parseStrBody.eq_def]
  simp only [if_neg h1, if_neg h2, if_neg h3]

theorem parseStrBody_safeAppend (cs rest : List Char)
    (h : cs.all jsonSafeChar = true) :
    parseStrBody (cs ++ '"' :: rest) = some rest := by
  induction cs with
  | nil =>
    show parseStrBody ('"' :: rest) = some rest
    exact parseStrBody_quote rest
  | cons c cs ih =>
    simp only [List.all_cons, Bool.and_eq_true] at h
    obtain ⟨hc, hrest⟩ := h
    simp only [jsonSafeChar, Bool.and_eq_true, Bool.not_eq_true',
      decide_eq_false_iff_not] at hc
    obtain ⟨⟨h1, h2⟩, h3⟩ := hc
    show parseStrBody (c :: (cs ++ '"' :: rest)) = some rest
    rw [parseStrBody_safeChar c _ h1 h2 h3]
    exact ih hrest

theorem parseValue_metadata (m : Nat) (t d : String)
    (ht : jsonSafeStr t = true) (hd : jsonSafeStr d = true) :
    parseValue (m + 5) (metadataBytes t d).data = some [] := by
  rw [metadataBytes_data]
  have hT := parseStrBody_safeAppend t.data
    (',' :: ' ' :: '"' :: 'd' :: 'e' :: 's' :: 'c' :: 'r' :: 'i' :: 'p' ::
      't' :: 'i' :: 'o' :: 'n' :: '"' :: ':' :: ' ' :: '"' ::
      (d.data ++ ('"' :: rbrace :: []))) ht
  have hD := parseStrBody_safeAppend d.data (rbrace :: []) hd
  unfold metadataData
  simp +decide [parseValue, parseMembers, skipWs, hT, hD,
    parseStrBody_quote, parseStrBody_safeChar]

/-- C10 counterexample.  The claim states the metadata file is
well-formed JSON *only when* neither string contains a quote, backslash
or control character.  A title containing quotes can still yield
well-formed JSON with injected structure:
`{"title": "A", "x": "y", "description": "d"}` parses fine. -/
theorem C10_counterexample :
    jsonWellFormed (metadataBytes "A\", \"x\": \"y" "d") = true
    ∧ jsonSafeStr "A\", \"x\": \"y" = false := by
  refine ⟨by decide, by decide⟩

/-- C10 (amended): every render job writes `metadata.json` whose bytes
are exactly the literal text
`{"title": "<title>", "description": "<description>"}` with the two
strings spliced verbatim and unescaped; the file is well-formed JSON
*when* neither string contains a double quote, backslash or control
character — but not *only* then, since strings with quotes can inject
structure that still parses as JSON (see the counterexample). -/
theorem C10_metadata_is_unescaped_splice :
    (∀ (cfg : Config) (job : RenderJob) (ws : List FileWrite),
        createOutputInThread cfg true job = .ok ws →
        ws.head? = some ⟨job.targetUrl ++ ["metadata.json"],
          metadataBytes (pageTitle cfg job.name) job.description⟩)
    ∧ (∀ t d : String, jsonSafeStr t = true → jsonSafeStr d = true →
        jsonWellFormed (metadataBytes t d) = true) := by
  constructor
  · intro cfg job ws h
    obtain ⟨c, p, hs⟩ := createOutputInThread_ok_shape cfg job ws h
    subst hs
    rfl
  · intro t d ht hd
    unfold jsonWellFormed
    have h4 : 4 ≤ (metadataBytes t d).data.length := by
      rw [metadataBytes_data]
      unfold metadataData
      simp [List.length_cons]
    obtain ⟨k, hk⟩ : ∃ k, (metadataBytes t d).data.length + 1 = k + 5 :=
      ⟨(metadataBytes t d).data.length - 4, by omega⟩
    rw [hk, parseValue_metadata k t d ht hd]
    rfl

/-- Witness for C10: a concrete succeeding job's first write is the
metadata file with the spliced literal, and safe strings produce
well-formed JSON. -/
theorem C10_metadata_is_unescaped_splice_witness :
    ([⟨["metadata.json"], metadataBytes "g - Proj Docs" ""⟩,
      ⟨["content.html"], "T"⟩, ⟨["index.html"], "P"⟩] : List FileWrite).head?
      = some ⟨([] : Url) ++ ["metadata.json"],
          metadataBytes
            (pageTitle ⟨"Proj", "1", none, none, none, "N", "H", "P", "T", "I"⟩
              "g") ""⟩
    ∧ jsonWellFormed (metadataBytes "alpha" "beta") = true :=
  ⟨C10_metadata_is_unescaped_splice.1
      ⟨"Proj", "1", none, none, none, "N", "H", "P", "T", "I"⟩
      ⟨"NAV", "g", "", [], "T", []⟩
      [⟨["metadata.json"], metadataBytes "g - Proj Docs" ""⟩,
       ⟨["content.html"], "T"⟩, ⟨["index.html"], "P"⟩] (by rfl),
   C10_metadata_is_unescaped_splice.2 "alpha" "beta" (by decide) (by decide)⟩

end Flash
